import Mathlib

/-!
Shallow embedding of the report formatter of mflux (src/mflux/info.py),
function format_metadata, together with the helper behaviour of the Python
builtins it relies on (dict lookup and truthiness, f-string rendering,
pathlib basename, "%.2f" formatting, datetime.fromisoformat/strftime).

Python runtime errors (TypeError, ValueError, IndexError) are modelled with
an Except monad: a raised-and-not-caught exception is an error result.
Python floats are modelled as decimal-scaled integers m / 10^e, which is
exact for the decimal literals that occur in metadata; the scientific
notation that repr uses for very large/small magnitudes is not modelled.
-/

namespace MFluxInfo

/-- A Python runtime exception class, as far as format_metadata can raise or
catch one. -/
inductive PyErr where
  | typeError
  | valueError
  | indexError
deriving Repr, DecidableEq

/-- A Python value that can appear in the metadata mapping: a string, an int,
a float (modelled as the exact decimal m / 10 ^ e), or a list. -/
inductive Value where
  | str (s : String)
  | int (n : Int)
  | float (m : Int) (e : Nat)
  | list (vs : List Value)
deriving Repr

/-- Python truthiness of a metadata value (`if x := exif.get(k):`). -/
def truthy : Value → Bool
  | .str s => !(s == "")
  | .int n => !(n == 0)
  | .float m _ => !(m == 0)
  | .list vs => !vs.isEmpty

/-- Is the value a Python str? -/
def isStr : Value → Bool
  | .str _ => true
  | _ => false

/-- A Python dict of metadata fields: association list, first binding wins
(a real dict has unique keys). -/
def Dict : Type := List (String × Value)

instance : Inhabited Dict := ⟨([] : List (String × Value))⟩

/-- `d.get(k)`: the value bound to `k`, if any. -/
def dictGet (d : Dict) (k : String) : Option Value :=
  match d with
  | [] => none
  | p :: rest => if p.1 == k then some p.2 else dictGet rest k

/-- The walrus-guard idiom `if x := exif.get(k):` — the value when it is
present and truthy, and `none` otherwise. -/
def getTruthy (d : Dict) (k : String) : Option Value :=
  match dictGet d k with
  | some v => if truthy v then some v else none
  | none => none

/-- Remove every binding of key `k` (used only to state claims about a field
being absent). -/
def eraseKey (k : String) (d : Dict) : Dict :=
  (d : List (String × Value)).filter (fun p => !(p.1 == k))

/-- The two-part structure returned by the metadata reader: the primary
(exif-like) and secondary (xmp-like) groups, each possibly absent. -/
structure Metadata where
  exif : Option Dict
  xmp : Option Dict

/-- Decimal digit character for d < 10. -/
def digitChar (d : Nat) : Char := Char.ofNat (48 + d)

/-- Digits of a natural number, most significant first; the fuel only bounds
the recursion depth and any fuel above the digit count gives the same
result. -/
def decimalReprAux : Nat → Nat → List Char
  | 0, _ => []
  | fuel + 1, n =>
    if n < 10 then [digitChar n]
    else decimalReprAux fuel (n / 10) ++ [digitChar (n % 10)]

/-- Decimal rendering of a natural number (Python str(n) for n ≥ 0). -/
def decimalRepr (n : Nat) : String := String.mk (decimalReprAux (n + 1) n)

/-- Python str() of an int, sign included. -/
def intRepr (i : Int) : String :=
  if i < 0 then "-" ++ decimalRepr i.natAbs else decimalRepr i.natAbs

/-- Drop trailing zero characters. -/
def trimZeros (cs : List Char) : List Char :=
  ((cs.reverse).dropWhile (fun c => c == '0')).reverse

/-- Left-pad a string with zero characters to length `k`. -/
def padZeros (k : Nat) (s : String) : String :=
  String.mk (List.replicate (k - s.length) '0') ++ s

/-- Python str() of the float m / 10 ^ e: integer part, a point, and the
fractional digits with trailing zeros removed but at least one digit kept
(str(1.0) = "1.0", str(0.8) = "0.8", str(12.30) = "12.3"). -/
def floatRepr (m : Int) (e : Nat) : String :=
  let sgn := if m < 0 then "-" else ""
  let a := m.natAbs
  if e == 0 then sgn ++ decimalRepr a ++ ".0"
  else
    let ip := a / 10 ^ e
    let fr := a % 10 ^ e
    let fcs := trimZeros (padZeros e (decimalRepr fr)).data
    let frac := if fcs.isEmpty then "0" else String.mk fcs
    sgn ++ decimalRepr ip ++ "." ++ frac

/-- Python repr() of a string: quoted, preferring single quotes, escaping the
quote character, backslashes and common control characters. -/
def strRepr (s : String) : String :=
  let sq : Char := Char.ofNat 39
  let q : Char := if s.data.contains sq && !(s.data.contains '"') then '"' else sq
  let esc := fun (c : Char) =>
    if c == '\\' then "\\\\"
    else if c == q then "\\" ++ String.mk [q]
    else if c == '\n' then "\\n"
    else if c == '\r' then "\\r"
    else if c == '\t' then "\\t"
    else String.mk [c]
  String.mk [q] ++ String.join (s.data.map esc) ++ String.mk [q]

mutual
/-- Python repr() of a metadata value. -/
def pyRepr : Value → String
  | .str s => strRepr s
  | .int n => intRepr n
  | .float m e => floatRepr m e
  | .list vs => "[" ++ pyReprList vs ++ "]"

/-- Comma-separated repr of the elements of a list. -/
def pyReprList : List Value → String
  | [] => ""
  | [v] => pyRepr v
  | v :: rest => pyRepr v ++ ", " ++ pyReprList rest
end

/-- Python str() of a metadata value, as an f-string interpolates it. -/
def pyStr : Value → String
  | .str s => s
  | v => pyRepr v

/-- Python len(): defined on strings and lists, TypeError otherwise. -/
def pyLen : Value → Except PyErr Nat
  | .str s => .ok s.length
  | .list vs => .ok vs.length
  | .int _ => .error .typeError
  | .float _ _ => .error .typeError

/-- Python iteration (enumerate target): characters of a string, elements of
a list, TypeError otherwise. -/
def pyElems : Value → Except PyErr (List Value)
  | .str s => .ok (s.data.map (fun c => Value.str (String.mk [c])))
  | .list vs => .ok vs
  | .int _ => .error .typeError
  | .float _ _ => .error .typeError

/-- Python subscript v[i] for a natural index. -/
def pyIndex : Value → Nat → Except PyErr Value
  | .str s, i =>
      match s.data.get? i with
      | some c => .ok (Value.str (String.mk [c]))
      | none => .error .indexError
  | .list vs, i =>
      match vs.get? i with
      | some v => .ok v
      | none => .error .indexError
  | .int _, _ => .error .typeError
  | .float _ _, _ => .error .typeError

/-- pathlib's Path(v): accepts a str, raises TypeError otherwise. -/
def asPathStr : Value → Except PyErr String
  | .str s => .ok s
  | _ => .error .typeError

/-- Split a character list on the slash separator. -/
def splitSlash (cs : List Char) : List (List Char) :=
  match cs with
  | [] => [[]]
  | c :: rest =>
    match splitSlash rest with
    | [] => [[]]
    | seg :: segs => if c == '/' then [] :: seg :: segs else (c :: seg) :: segs

/-- PurePosixPath(p).name: the final path component, with empty components
and single-dot components normalized away; "" when there is none. -/
def pathName (p : String) : String :=
  let comps := (splitSlash p.data).filter (fun seg => !(seg.isEmpty) && !(seg == ['.']))
  String.mk ((comps.getLast?).getD [])

/-- Two fractional digits for r < 100, zero padded. -/
def frac2 (r : Nat) : String := String.mk [digitChar (r / 10), digitChar (r % 10)]

/-- Round-half-even division (the rounding Python's "%.2f" uses). -/
def roundHalfEvenDiv (a d : Nat) : Nat :=
  let q := a / d
  let r := a % d
  if d < 2 * r then q + 1
  else if 2 * r < d then q
  else if q % 2 == 0 then q else q + 1

/-- The string produced by "%.2f" on the decimal value m / 10 ^ e. -/
def fixed2 (m : Int) (e : Nat) : String :=
  let sgn := if m < 0 then "-" else ""
  let a := m.natAbs
  let t := if e ≤ 2 then a * 10 ^ (2 - e) else roundHalfEvenDiv a (10 ^ (e - 2))
  sgn ++ decimalRepr (t / 100) ++ "." ++ frac2 (t % 100)

/-- The f-string conversion {x:.2f}: defined on ints and floats; a str raises
ValueError, a list raises TypeError. -/
def pyFormatFixed2 : Value → Except PyErr String
  | .int n => .ok (fixed2 n 0)
  | .float m e => .ok (fixed2 m e)
  | .str _ => .error .valueError
  | .list _ => .error .typeError

/-- The fields of a parsed datetime that strftime("%Y-%m-%d %H:%M:%S") uses
(microseconds and timezone are validated during parsing and then dropped). -/
structure PyDateTime where
  year : Nat
  month : Nat
  day : Nat
  hour : Nat
  minute : Nat
  second : Nat
deriving Repr, DecidableEq

/-- Is `y` a Gregorian leap year? -/
def isLeapYear (y : Nat) : Bool :=
  y % 4 == 0 && (!(y % 100 == 0) || y % 400 == 0)

/-- Days in a month of a given year. -/
def daysInMonth (y mo : Nat) : Nat :=
  if mo == 2 then (if isLeapYear y then 29 else 28)
  else if mo == 4 || mo == 6 || mo == 9 || mo == 11 then 30
  else 31

/-- Numeric value of two digit characters; none if either is not a digit. -/
def twoDigits (c1 c2 : Char) : Option Nat :=
  if c1.isDigit && c2.isDigit then
    some ((c1.toNat - 48) * 10 + (c2.toNat - 48))
  else none

/-- Parse the timezone suffix (+|-)HH:MM[:SS[.ffffff]] of an isoformat time
string; returns true iff it is well formed and the offset is a valid
timezone offset (strictly less than 24 hours in magnitude). -/
def parseTz (cs : List Char) : Bool :=
  match cs with
  | sgn :: h1 :: h2 :: ':' :: m1 :: m2 :: rest =>
    if (sgn == '+' || sgn == '-') then
      match twoDigits h1 h2, twoDigits m1 m2 with
      | some hh, some mm =>
        match rest with
        | [] => hh * 3600 + mm * 60 < 86400
        | ':' :: s1 :: s2 :: rest2 =>
          match twoDigits s1 s2 with
          | some ss =>
            (match rest2 with
             | [] => true
             | '.' :: frac => frac.length == 6 && frac.all Char.isDigit
             | _ => false)
            && hh * 3600 + mm * 60 + ss < 86400
          | none => false
        | _ => false
      | _, _ => false
    else false
  | _ => false

/-- Parse the fractional-seconds-and-timezone tail after SS: empty, a
timezone, or '.' followed by exactly 3 or 6 digits and then an optional
timezone. -/
def parseFracTz (cs : List Char) : Bool :=
  match cs with
  | [] => true
  | '.' :: rest =>
    let frac := rest.takeWhile Char.isDigit
    let rest2 := rest.drop frac.length
    (frac.length == 3 || frac.length == 6) &&
      (match rest2 with
       | [] => true
       | more => parseTz more)
  | more => parseTz more

/-- Parse the time portion HH[:MM[:SS[.fff[fff]]]][tz] of an isoformat
string (the grammar documented for datetime.fromisoformat before the Python
3.11 extensions); range validation happens in the datetime constructor, not
here, exactly as in CPython. -/
def parseTime (cs : List Char) : Option (Nat × Nat × Nat) :=
  match cs with
  | h1 :: h2 :: rest =>
    match twoDigits h1 h2 with
    | none => none
    | some hh =>
      match rest with
      | [] => some (hh, 0, 0)
      | ':' :: m1 :: m2 :: rest2 =>
        match twoDigits m1 m2 with
        | none => none
        | some mm =>
          match rest2 with
          | [] => some (hh, mm, 0)
          | ':' :: s1 :: s2 :: rest3 =>
            match twoDigits s1 s2 with
            | none => none
            | some ss => if parseFracTz rest3 then some (hh, mm, ss) else none
          | more => if parseTz more then some (hh, mm, 0) else none
      | more => if parseTz more then some (hh, 0, 0) else none
  | _ => none

/-- The validation the datetime constructor performs on parsed components
(MINYEAR/MAXYEAR, month, day against the calendar, and time ranges). -/
def mkDateTime (yr mo dy hh mm ss : Nat) : Option PyDateTime :=
  if 1 ≤ yr && yr ≤ 9999 && 1 ≤ mo && mo ≤ 12 && 1 ≤ dy &&
      dy ≤ daysInMonth yr mo && hh ≤ 23 && mm ≤ 59 && ss ≤ 59
    then some ⟨yr, mo, dy, hh, mm, ss⟩ else none

/-- datetime.fromisoformat on a string: the date YYYY-MM-DD, optionally
followed by one separator character and a time; none models the ValueError
raised for a malformed string or an out-of-range component. -/
def fromisoformat (s : String) : Option PyDateTime :=
  match s.data with
  | y1 :: y2 :: y3 :: y4 :: c1 :: m1 :: m2 :: c2 :: d1 :: d2 :: rest =>
    match twoDigits y1 y2, twoDigits y3 y4, twoDigits m1 m2, twoDigits d1 d2 with
    | some yh, some yl, some mo, some dy =>
      if (c1 == '-') && (c2 == '-') then
        match rest with
        | [] => mkDateTime (yh * 100 + yl) mo dy 0 0 0
        | _sep :: timecs =>
          match parseTime timecs with
          | some (hh, mm, ss) => mkDateTime (yh * 100 + yl) mo dy hh mm ss
          | none => none
      else none
    | _, _, _, _ => none
  | _ => none

/-- Zero-padded decimal rendering to width `k`. -/
def padNum (k n : Nat) : String := padZeros k (decimalRepr n)

/-- strftime("%Y-%m-%d %H:%M:%S") on a parsed datetime (%Y zero padded to
four digits, which fromisoformat's four-digit years always fill). -/
def strftimeYmdHms (dt : PyDateTime) : String :=
  padNum 4 dt.year ++ "-" ++ padNum 2 dt.month ++ "-" ++ padNum 2 dt.day ++ " " ++
    padNum 2 dt.hour ++ ":" ++ padNum 2 dt.minute ++ ":" ++ padNum 2 dt.second

/-- The 60-character rule "=" * 60. -/
def rule60 : String := String.mk (List.replicate 60 '=')

/-- Append one line when the guarded field is present and truthy — the
`if x := exif.get(k): lines.append(...)` idiom. -/
def pushIf (o : Option Value) (f : Value → String) (lines : List String) : List String :=
  match o with
  | some v => lines ++ [f v]
  | none => lines

/-- Lines of the header and of sections 1–6 (prompt, negative prompt, model
block, dimensions, generation parameters, technical settings), which involve
no fallible operation. -/
def headLines (exif : Dict) : List String :=
  let lines := [rule60, "MFLUX Image Information", rule60]
  let lines := pushIf (getTruthy exif ("prompt")) (fun p => "\nPrompt: " ++ pyStr p) lines
  let lines := pushIf (getTruthy exif ("negative_prompt"))
    (fun p => "Negative Prompt: " ++ pyStr p) lines
  let lines := lines ++ [""]
  let lines := pushIf (getTruthy exif ("model")) (fun v => "Model: " ++ pyStr v) lines
  let lines := pushIf (getTruthy exif ("width")) (fun v => "Width: " ++ pyStr v) lines
  let lines := pushIf (getTruthy exif ("height")) (fun v => "Height: " ++ pyStr v) lines
  let lines := lines ++ [""]
  let lines := pushIf (getTruthy exif ("seed")) (fun v => "Seed: " ++ pyStr v) lines
  let lines := pushIf (getTruthy exif ("steps")) (fun v => "Steps: " ++ pyStr v) lines
  let lines := pushIf (getTruthy exif ("guidance")) (fun v => "Guidance: " ++ pyStr v) lines
  let lines := pushIf (getTruthy exif ("quantize"))
    (fun v => "Quantization: " ++ pyStr v ++ "-bit") lines
  let lines := pushIf (getTruthy exif ("precision")) (fun v => "Precision: " ++ pyStr v) lines
  lines

/-- The body of the LoRA loop: for each entry, the scale (the aligned
lora_scales entry, or the default 1.0 past its end) and the basename of the
path make one indented line.  A raised exception propagates as an error. -/
def loraLoop (scales : Value) : Nat → List Value → Except PyErr (List String)
  | _, [] => .ok []
  | i, lora :: rest =>
    match pyLen scales with
    | .error e => .error e
    | .ok n =>
      match (if i < n then pyIndex scales i else .ok (Value.float 10 1)) with
      | .error e => .error e
      | .ok scale =>
        match asPathStr lora with
        | .error e => .error e
        | .ok name =>
          match loraLoop scales (i + 1) rest with
          | .error e => .error e
          | .ok restLines =>
            .ok (("  - " ++ pathName name ++ " (scale: " ++ pyStr scale ++ ")") :: restLines)

/-- Section 7: the LoRA block. -/
def loraSection (exif : Dict) (lines : List String) : Except PyErr (List String) :=
  match getTruthy exif ("lora_paths") with
  | none => .ok lines
  | some lp =>
    match pyLen lp with
    | .error e => .error e
    | .ok n =>
      match pyElems lp with
      | .error e => .error e
      | .ok items =>
        match loraLoop ((getTruthy exif ("lora_scales")).getD (Value.list [])) 0 items with
        | .error e => .error e
        | .ok entries =>
          .ok (lines ++ [""] ++ ["LoRAs (" ++ decimalRepr n ++ "):"] ++ entries)

/-- Section 8: image-to-image parameters. -/
def imageSection (exif : Dict) (lines : List String) : Except PyErr (List String) :=
  match getTruthy exif ("image_path") with
  | none => .ok lines
  | some ip =>
    match asPathStr ip with
    | .error e => .error e
    | .ok p =>
      .ok (pushIf (getTruthy exif ("image_strength"))
        (fun v => "Image Strength: " ++ pyStr v)
        (lines ++ [""] ++ ["Source Image: " ++ pathName p]))

/-- Section 9: ControlNet parameters. -/
def controlnetSection (exif : Dict) (lines : List String) : Except PyErr (List String) :=
  match getTruthy exif ("controlnet_image_path") with
  | none => .ok lines
  | some cp =>
    match asPathStr cp with
    | .error e => .error e
    | .ok p =>
      .ok (pushIf (getTruthy exif ("controlnet_strength"))
        (fun v => "ControlNet Strength: " ++ pyStr v)
        (lines ++ [""] ++ ["ControlNet Image: " ++ pathName p]))

/-- The Generation Time line of section 10. -/
def genTimeStep (exif : Dict) (lines : List String) : Except PyErr (List String) :=
  match getTruthy exif ("generation_time_seconds") with
  | some gt =>
    match pyFormatFixed2 gt with
    | .error e => .error e
    | .ok s => .ok (lines ++ ["Generation Time: " ++ s ++ "s"])
  | none => .ok lines

/-- The Created line of section 10.  The try/except of the source catches
only ValueError and AttributeError; fromisoformat raises TypeError on a
non-str argument, which therefore escapes the formatter. -/
def createdStep (exif : Dict) (lines : List String) : Except PyErr (List String) :=
  match getTruthy exif ("created_at") with
  | some (.str s) =>
    match fromisoformat s with
    | some dt => .ok (lines ++ ["Created: " ++ strftimeYmdHms dt])
    | none => .ok (lines ++ ["Created: " ++ s])
  | some _ => .error .typeError
  | none => .ok lines

/-- Section 10: generation metadata (unconditional separator, then the
generation time, creation timestamp and version lines). -/
def genMetaSection (exif : Dict) (lines : List String) : Except PyErr (List String) :=
  match genTimeStep exif (lines ++ [""]) with
  | .error e => .error e
  | .ok lines2 =>
    match createdStep exif lines2 with
    | .error e => .error e
    | .ok lines3 =>
      .ok (pushIf (getTruthy exif ("mflux_version"))
        (fun v => "MFLUX Version: " ++ pyStr v) lines3)

/-- The full ordered list of report lines for a non-empty exif mapping. -/
def formatLines (exif : Dict) : Except PyErr (List String) :=
  match loraSection exif (headLines exif) with
  | .error e => .error e
  | .ok l1 =>
    match imageSection exif l1 with
    | .error e => .error e
    | .ok l2 =>
      match controlnetSection exif l2 with
      | .error e => .error e
      | .ok l3 =>
        match genMetaSection exif l3 with
        | .error e => .error e
        | .ok l4 => .ok (l4 ++ [rule60])

/-- format_metadata: "No metadata found" when the exif group is empty or
absent, and otherwise the report lines joined with newlines. -/
def format_metadata (metadata : Metadata) : Except PyErr String :=
  let exif := (metadata.exif).getD ([] : List (String × Value))
  if exif.isEmpty then Except.ok "No metadata found"
  else (formatLines exif).map (fun ls => String.intercalate "\n" ls)

/-! ### Spec-side predicates used to state the claims -/

/-- The recognized field names of the primary group, in the order the
formatter consults them. -/
def recognizedKeys : List String :=
  ["prompt", "negative_prompt", "model", "width", "height", "seed", "steps",
   "guidance", "quantize", "precision", "lora_paths", "lora_scales",
   "image_path", "image_strength", "controlnet_image_path",
   "controlnet_strength", "generation_time_seconds", "created_at",
   "mflux_version"]

/-- The trigger fields of sections 1, 2, 4, 6–9 together with the inner
fields of the always-attempted sections 3, 5 and 10. -/
def sectionFieldKeys : List String :=
  ["prompt", "negative_prompt", "model", "width", "height", "seed", "steps",
   "guidance", "quantize", "precision", "lora_paths", "image_path",
   "controlnet_image_path", "generation_time_seconds", "created_at",
   "mflux_version"]

/-- A string made of an integer part free of decimal points, a point, and
exactly two decimal digits. -/
def twoFracDigits (s : String) : Prop :=
  ∃ (a : List Char) (b c : Char),
    s.data = a ++ ['.', b, c] ∧ b.isDigit = true ∧ c.isDigit = true ∧ '.' ∉ a

/-- The claim-side typing discipline of the data model: the fields whose
values reach a type-sensitive operation hold their documented types (the
remaining fields are rendered by str() and may hold anything). -/
def wellTypedValues (d : Dict) : Prop :=
  (∀ v, getTruthy d ("lora_paths") = some v →
    ∃ ps, v = Value.list ps ∧ ∀ p ∈ ps, isStr p = true) ∧
  (∀ v, getTruthy d ("lora_scales") = some v → ∃ vs, v = Value.list vs) ∧
  (∀ v, getTruthy d ("image_path") = some v → isStr v = true) ∧
  (∀ v, getTruthy d ("controlnet_image_path") = some v → isStr v = true) ∧
  (∀ v, getTruthy d ("generation_time_seconds") = some v →
    (∃ n, v = Value.int n) ∨ (∃ m e, v = Value.float m e)) ∧
  (∀ v, getTruthy d ("created_at") = some v → isStr v = true)

/-! ### Helper lemmas -/

theorem pushIf_extends (o : Option Value) (f : Value → String) (l : List String) :
    ∃ t, pushIf o f l = l ++ t := by
  cases o with
  | none => exact ⟨[], by simp [pushIf]⟩
  | some v => exact ⟨[f v], by simp [pushIf]⟩

theorem mem_pushIf {x : String} {l : List String} (o : Option Value) (f : Value → String)
    (h : x ∈ l) : x ∈ pushIf o f l := by
  obtain ⟨t, ht⟩ := pushIf_extends o f l
  rw [ht]
  exact List.mem_append_left _ h

theorem extends_step {b l : List String} (o : Option Value) (f : Value → String)
    (h : ∃ t, l = b ++ t) : ∃ t, pushIf o f l = b ++ t := by
  obtain ⟨t, ht⟩ := h
  obtain ⟨u, hu⟩ := pushIf_extends o f l
  exact ⟨t ++ u, by rw [hu, ht, List.append_assoc]⟩

theorem extends_app {b l : List String} (x : List String)
    (h : ∃ t, l = b ++ t) : ∃ t, l ++ x = b ++ t := by
  obtain ⟨t, ht⟩ := h
  exact ⟨t ++ x, by rw [ht, List.append_assoc]⟩

theorem headLines_head (e : Dict) :
    ∃ t, headLines e = [rule60, "MFLUX Image Information", rule60] ++ t := by
  simp only [headLines]
  apply extends_step
  apply extends_step
  apply extends_step
  apply extends_step
  apply extends_step
  apply extends_app
  apply extends_step
  apply extends_step
  apply extends_step
  apply extends_app
  apply extends_step
  apply extends_step
  exact ⟨[], rfl⟩

theorem dictGet_ne_none_of_mem {d : Dict} {k : String} {v : Value}
    (h : dictGet d k = some v) : d ≠ [] := by
  intro he
  rw [he] at h
  simp [dictGet] at h

theorem dictGet_eraseKey_ne {d : Dict} {k k' : String} (hne : k' ≠ k) :
    dictGet (eraseKey k d) k' = dictGet d k' := by
  induction d with
  | nil => rfl
  | cons p rest ih =>
    by_cases hp : p.1 = k
    · have h1 : eraseKey k (p :: rest) = eraseKey k rest := by
        simp [eraseKey, List.filter, hp]
      rw [h1, ih]
      have h2 : (p.1 == k') = false := by
        rw [hp]
        exact beq_false_of_ne (fun hh => hne hh.symm)
      simp [dictGet, h2]
    · have h1 : eraseKey k (p :: rest) = p :: eraseKey k rest := by
        simp [eraseKey, List.filter, beq_false_of_ne hp]
      rw [h1]
      by_cases hq : p.1 = k'
      · simp [dictGet, hq]
      · simp [dictGet, beq_false_of_ne hq, ih]

theorem dictGet_eraseKey_self (d : Dict) (k : String) :
    dictGet (eraseKey k d) k = none := by
  induction d with
  | nil => rfl
  | cons p rest ih =>
    by_cases hp : p.1 = k
    · have h1 : eraseKey k (p :: rest) = eraseKey k rest := by
        simp [eraseKey, List.filter, hp]
      rw [h1, ih]
    · have h1 : eraseKey k (p :: rest) = p :: eraseKey k rest := by
        simp [eraseKey, List.filter, beq_false_of_ne hp]
      rw [h1]
      simp [dictGet, beq_false_of_ne hp, ih]

theorem getTruthy_eraseKey_ne {d : Dict} {k k' : String} (hne : k' ≠ k) :
    getTruthy (eraseKey k d) k' = getTruthy d k' := by
  unfold getTruthy
  rw [dictGet_eraseKey_ne hne]

theorem getTruthy_eraseKey_self (d : Dict) (k : String) :
    getTruthy (eraseKey k d) k = none := by
  unfold getTruthy
  rw [dictGet_eraseKey_self]

theorem getTruthy_eq_none_of_falsy {d : Dict} {k : String} {v : Value}
    (hv : dictGet d k = some v) (hf : truthy v = false) : getTruthy d k = none := by
  simp [getTruthy, hv, hf]

theorem digitChar_isDigit {d : Nat} (h : d < 10) : (digitChar d).isDigit = true := by
  interval_cases d <;> decide

theorem decimalReprAux_digits (fuel : Nat) :
    ∀ n, ∀ c ∈ decimalReprAux fuel n, c.isDigit = true := by
  induction fuel with
  | zero =>
    intro n c hc
    simp [decimalReprAux] at hc
  | succ f ih =>
    intro n c hc
    unfold decimalReprAux at hc
    split at hc
    · rw [List.mem_singleton] at hc
      exact hc ▸ digitChar_isDigit (by omega)
    · rcases List.mem_append.mp hc with hc2 | hc2
      · exact ih (n / 10) c hc2
      · rw [List.mem_singleton] at hc2
        exact hc2 ▸ digitChar_isDigit (Nat.mod_lt _ (by omega))

theorem decimalRepr_digits (n : Nat) :
    ∀ c ∈ (decimalRepr n).data, c.isDigit = true := by
  intro c hc
  exact decimalReprAux_digits (n + 1) n c hc

theorem splitSlash_no_slash : ∀ (cs : List Char), ∀ seg ∈ splitSlash cs, '/' ∉ seg := by
  intro cs
  induction cs with
  | nil =>
    intro seg hseg
    unfold splitSlash at hseg
    simp at hseg
    simp [hseg]
  | cons c rest ih =>
    intro seg hseg
    unfold splitSlash at hseg
    cases hr : splitSlash rest with
    | nil =>
      rw [hr] at hseg
      simp at hseg
      simp [hseg]
    | cons s ss =>
      rw [hr] at hseg
      rw [hr] at ih
      dsimp only at hseg
      by_cases hc : (c == '/') = true
      · rw [if_pos hc] at hseg
        rcases List.mem_cons.mp hseg with h1 | h1
        · simp [h1]
        · rcases List.mem_cons.mp h1 with h2 | h2
          · exact h2 ▸ ih s (by simp)
          · exact ih seg (by simp [h2])
      · rw [if_neg hc] at hseg
        rcases List.mem_cons.mp hseg with h1 | h1
        · rw [h1]
          intro hmem
          rcases List.mem_cons.mp hmem with hm | hm
          · exact hc (by rw [← hm]; decide)
          · exact ih s (by simp) hm
        · exact ih seg (List.mem_cons_of_mem s h1)

theorem getLastGetD_mem_or {α : Type} (l : List α) (d : α) :
    (l.getLast?).getD d = d ∨ (l.getLast?).getD d ∈ l := by
  induction l generalizing d with
  | nil => exact Or.inl rfl
  | cons a as ih =>
    cases as with
    | nil => exact Or.inr (by simp)
    | cons b bs =>
      rw [List.getLast?_cons_cons]
      rcases ih (d := d) with h | h
      · exact Or.inl h
      · exact Or.inr (List.mem_cons_of_mem a h)

theorem pathName_no_slash (p : String) : '/' ∉ (pathName p).data := by
  simp only [pathName]
  rcases getLastGetD_mem_or
      ((splitSlash p.data).filter (fun seg => !(seg.isEmpty) && !(seg == ['.']))) [] with
    h | h
  · intro hmem
    have hmem2 : '/' ∈ (((splitSlash p.data).filter
        (fun seg => !(seg.isEmpty) && !(seg == ['.']))).getLast?).getD [] := hmem
    rw [h] at hmem2
    cases hmem2
  · have hmem := List.mem_of_mem_filter h
    exact splitSlash_no_slash p.data _ hmem

theorem loraSection_extends {e : Dict} {ls out : List String}
    (h : loraSection e ls = Except.ok out) : ∃ t, out = ls ++ t := by
  unfold loraSection at h
  split at h
  · injection h with h2
    exact ⟨[], by rw [← h2]; simp⟩
  · rename_i lp
    split at h
    · simp at h
    · rename_i n hn
      split at h
      · simp at h
      · rename_i items hitems
        split at h
        · simp at h
        · rename_i entries hentries
          injection h with h2
          exact ⟨[""] ++ ["LoRAs (" ++ decimalRepr n ++ "):"] ++ entries,
            by rw [← h2]; simp⟩

theorem imageSection_extends {e : Dict} {ls out : List String}
    (h : imageSection e ls = Except.ok out) : ∃ t, out = ls ++ t := by
  unfold imageSection at h
  split at h
  · injection h with h2
    exact ⟨[], by rw [← h2]; simp⟩
  · split at h
    · simp at h
    · rename_i p hp
      injection h with h2
      obtain ⟨u, hu⟩ := pushIf_extends (getTruthy e ("image_strength"))
        (fun v => "Image Strength: " ++ pyStr v)
        (ls ++ [""] ++ ["Source Image: " ++ pathName p])
      exact ⟨[""] ++ ["Source Image: " ++ pathName p] ++ u, by rw [← h2, hu]; simp⟩

theorem controlnetSection_extends {e : Dict} {ls out : List String}
    (h : controlnetSection e ls = Except.ok out) : ∃ t, out = ls ++ t := by
  unfold controlnetSection at h
  split at h
  · injection h with h2
    exact ⟨[], by rw [← h2]; simp⟩
  · split at h
    · simp at h
    · rename_i p hp
      injection h with h2
      obtain ⟨u, hu⟩ := pushIf_extends (getTruthy e ("controlnet_strength"))
        (fun v => "ControlNet Strength: " ++ pyStr v)
        (ls ++ [""] ++ ["ControlNet Image: " ++ pathName p])
      exact ⟨[""] ++ ["ControlNet Image: " ++ pathName p] ++ u, by rw [← h2, hu]; simp⟩

theorem genTimeStep_extends {e : Dict} {ls out : List String}
    (h : genTimeStep e ls = Except.ok out) : ∃ t, out = ls ++ t := by
  unfold genTimeStep at h
  split at h
  · split at h
    · simp at h
    · rename_i s hs
      injection h with h2
      exact ⟨["Generation Time: " ++ s ++ "s"], h2.symm⟩
  · injection h with h2
    exact ⟨[], by rw [← h2]; simp⟩

theorem createdStep_extends {e : Dict} {ls out : List String}
    (h : createdStep e ls = Except.ok out) : ∃ t, out = ls ++ t := by
  unfold createdStep at h
  split at h
  · split at h
    · injection h with h2
      exact ⟨_, h2.symm⟩
    · injection h with h2
      exact ⟨_, h2.symm⟩
  · simp at h
  · injection h with h2
    exact ⟨[], by rw [← h2]; simp⟩

theorem genMetaSection_parts {e : Dict} {ls out : List String}
    (h : genMetaSection e ls = Except.ok out) :
    ∃ l2 l3, genTimeStep e (ls ++ [""]) = Except.ok l2 ∧
      createdStep e l2 = Except.ok l3 ∧
      out = pushIf (getTruthy e ("mflux_version"))
        (fun v => "MFLUX Version: " ++ pyStr v) l3 := by
  unfold genMetaSection at h
  split at h
  · simp at h
  · rename_i l2 hl2
    split at h
    · simp at h
    · rename_i l3 hl3
      injection h with h2
      exact ⟨l2, l3, hl2, hl3, h2.symm⟩

theorem genMetaSection_extends {e : Dict} {ls out : List String}
    (h : genMetaSection e ls = Except.ok out) : ∃ t, out = ls ++ t := by
  obtain ⟨l2, l3, hl2, hl3, hout⟩ := genMetaSection_parts h
  obtain ⟨t1, ht1⟩ := genTimeStep_extends hl2
  obtain ⟨t2, ht2⟩ := createdStep_extends hl3
  obtain ⟨u, hu⟩ := pushIf_extends (getTruthy e ("mflux_version"))
    (fun v => "MFLUX Version: " ++ pyStr v) l3
  exact ⟨[""] ++ t1 ++ t2 ++ u, by rw [hout, hu, ht2, ht1]; simp⟩

theorem formatLines_parts {e : Dict} {ls : List String}
    (h : formatLines e = Except.ok ls) :
    ∃ l1 l2 l3 l4,
      loraSection e (headLines e) = Except.ok l1 ∧
      imageSection e l1 = Except.ok l2 ∧
      controlnetSection e l2 = Except.ok l3 ∧
      genMetaSection e l3 = Except.ok l4 ∧
      ls = l4 ++ [rule60] := by
  unfold formatLines at h
  split at h
  · simp at h
  · rename_i l1 h1
    split at h
    · simp at h
    · rename_i l2 h2
      split at h
      · simp at h
      · rename_i l3 h3
        split at h
        · simp at h
        · rename_i l4 h4
          injection h with h5
          exact ⟨l1, l2, l3, l4, h1, h2, h3, h4, h5.symm⟩

/-- The scale aligned with index `i`: the lora_scales entry there when the
index is within the list, the default 1.0 otherwise. -/
def scaleAt (svs : List Value) (i : Nat) : Value :=
  match svs.get? i with
  | some w => w
  | none => Value.float 10 1

/-- The entry lines the LoRA loop produces for string paths, starting at
index `i`. -/
def loraLinesSpec (svs : List Value) : Nat → List String → List String
  | _, [] => []
  | i, p :: rest =>
    ("  - " ++ pathName p ++ " (scale: " ++ pyStr (scaleAt svs i) ++ ")") ::
      loraLinesSpec svs (i + 1) rest

theorem scaleAt_eq_of_get {svs : List Value} {i : Nat} {w : Value}
    (hg : svs.get? i = some w) : scaleAt svs i = w := by
  unfold scaleAt
  rw [hg]

theorem scaleAt_eq_default {svs : List Value} {i : Nat}
    (hg : svs.get? i = none) : scaleAt svs i = Value.float 10 1 := by
  unfold scaleAt
  rw [hg]

theorem loraLinesSpec_length (svs : List Value) :
    ∀ (paths : List String) (j : Nat), (loraLinesSpec svs j paths).length = paths.length := by
  intro paths
  induction paths with
  | nil => intro j; rfl
  | cons p rest ih => intro j; simp [loraLinesSpec, ih]

theorem loraLinesSpec_get (svs : List Value) :
    ∀ (paths : List String) (j i : Nat) (p : String), paths.get? i = some p →
    (loraLinesSpec svs j paths).get? i =
      some ("  - " ++ pathName p ++ " (scale: " ++ pyStr (scaleAt svs (j + i)) ++ ")") := by
  intro paths
  induction paths with
  | nil => intro j i p hp; simp at hp
  | cons q rest ih =>
    intro j i p hp
    cases i with
    | zero =>
      simp only [List.get?] at hp
      injection hp with hp2
      simp [loraLinesSpec, hp2]
    | succ i2 =>
      simp only [List.get?] at hp
      have := ih (j + 1) i2 p hp
      simp only [loraLinesSpec, List.get?]
      rw [this]
      have harith : j + 1 + i2 = j + (i2 + 1) := by omega
      rw [harith]

theorem loraLoop_strs (svs : List Value) :
    ∀ (paths : List String) (i : Nat),
    loraLoop (Value.list svs) i (paths.map Value.str) =
      Except.ok (loraLinesSpec svs i paths) := by
  intro paths
  induction paths with
  | nil => intro i; rfl
  | cons p rest ih =>
    intro i
    show loraLoop (Value.list svs) i (Value.str p :: rest.map Value.str) = _
    unfold loraLoop
    dsimp only [pyLen, asPathStr]
    by_cases hi : i < svs.length
    · rw [if_pos hi]
      cases hg : svs.get? i with
      | none =>
        exfalso
        rw [List.get?_eq_none] at hg
        omega
      | some w =>
        dsimp only [pyIndex]
        rw [hg]
        dsimp only
        rw [ih (i + 1)]
        dsimp only [loraLinesSpec]
        rw [scaleAt_eq_of_get hg]
    · rw [if_neg hi]
      dsimp only
      rw [ih (i + 1)]
      dsimp only [loraLinesSpec]
      have hg : svs.get? i = none := by
        rw [List.get?_eq_none]
        omega
      rw [scaleAt_eq_default hg]

theorem loraSection_some {e : Dict} {ls out : List String} {lp : Value}
    (hlp : getTruthy e ("lora_paths") = some lp)
    (h : loraSection e ls = Except.ok out) :
    ∃ n items entries, pyLen lp = Except.ok n ∧ pyElems lp = Except.ok items ∧
      loraLoop ((getTruthy e ("lora_scales")).getD (Value.list [])) 0 items =
        Except.ok entries ∧
      out = ls ++ [""] ++ ["LoRAs (" ++ decimalRepr n ++ "):"] ++ entries := by
  unfold loraSection at h
  rw [hlp] at h
  dsimp only at h
  split at h
  · simp at h
  · rename_i n hn
    split at h
    · simp at h
    · rename_i items hitems
      split at h
      · simp at h
      · rename_i entries hentries
        injection h with h2
        exact ⟨n, items, entries, hn, hitems, hentries, h2.symm⟩

theorem imageSection_some {e : Dict} {ls out : List String} {p : String}
    (hp : getTruthy e ("image_path") = some (Value.str p))
    (h : imageSection e ls = Except.ok out) :
    out = pushIf (getTruthy e ("image_strength"))
      (fun v => "Image Strength: " ++ pyStr v)
      (ls ++ [""] ++ ["Source Image: " ++ pathName p]) := by
  unfold imageSection at h
  rw [hp] at h
  dsimp only [asPathStr] at h
  injection h with h2
  exact h2.symm

theorem controlnetSection_some {e : Dict} {ls out : List String} {p : String}
    (hp : getTruthy e ("controlnet_image_path") = some (Value.str p))
    (h : controlnetSection e ls = Except.ok out) :
    out = pushIf (getTruthy e ("controlnet_strength"))
      (fun v => "ControlNet Strength: " ++ pyStr v)
      (ls ++ [""] ++ ["ControlNet Image: " ++ pathName p]) := by
  unfold controlnetSection at h
  rw [hp] at h
  dsimp only [asPathStr] at h
  injection h with h2
  exact h2.symm

theorem genTimeStep_some {e : Dict} {ls out : List String} {v : Value}
    (hv : getTruthy e ("generation_time_seconds") = some v)
    (h : genTimeStep e ls = Except.ok out) :
    ∃ s, pyFormatFixed2 v = Except.ok s ∧
      out = ls ++ ["Generation Time: " ++ s ++ "s"] := by
  unfold genTimeStep at h
  rw [hv] at h
  dsimp only at h
  split at h
  · simp at h
  · rename_i s hs
    injection h with h2
    exact ⟨s, hs, h2.symm⟩

theorem createdStep_str {e : Dict} {ls out : List String} {s : String}
    (hv : getTruthy e ("created_at") = some (Value.str s))
    (h : createdStep e ls = Except.ok out) :
    (∀ dt, fromisoformat s = some dt → out = ls ++ ["Created: " ++ strftimeYmdHms dt]) ∧
    (fromisoformat s = none → out = ls ++ ["Created: " ++ s]) := by
  unfold createdStep at h
  rw [hv] at h
  dsimp only at h
  split at h
  · rename_i dt hdt
    injection h with h2
    constructor
    · intro dt2 hdt2
      rw [hdt] at hdt2
      injection hdt2 with h3
      rw [← h3]
      exact h2.symm
    · intro hn
      rw [hdt] at hn
      simp at hn
  · rename_i hdt
    injection h with h2
    constructor
    · intro dt2 hdt2
      rw [hdt] at hdt2
      simp at hdt2
    · intro _
      exact h2.symm

theorem createdStep_nonstr {e : Dict} {v : Value} (ls : List String)
    (hv : getTruthy e ("created_at") = some v) (hns : isStr v = false) :
    createdStep e ls = Except.error PyErr.typeError := by
  unfold createdStep
  rw [hv]
  cases v with
  | str s => simp [isStr] at hns
  | int n => rfl
  | float m ex => rfl
  | list vs => rfl

theorem formatLines_created_nonstr {e : Dict} {v : Value}
    (hv : getTruthy e ("created_at") = some v) (hns : isStr v = false) :
    ∀ ls, formatLines e ≠ Except.ok ls := by
  intro ls h
  obtain ⟨l1, l2, l3, l4, _, _, _, h4, _⟩ := formatLines_parts h
  obtain ⟨m2, m3, hgt, hcs, _⟩ := genMetaSection_parts h4
  rw [createdStep_nonstr m2 hv hns] at hcs
  simp at hcs

theorem formatLines_congr {d1 d2 : Dict}
    (k1 : getTruthy d1 ("prompt") = getTruthy d2 ("prompt"))
    (k2 : getTruthy d1 ("negative_prompt") = getTruthy d2 ("negative_prompt"))
    (k3 : getTruthy d1 ("model") = getTruthy d2 ("model"))
    (k4 : getTruthy d1 ("width") = getTruthy d2 ("width"))
    (k5 : getTruthy d1 ("height") = getTruthy d2 ("height"))
    (k6 : getTruthy d1 ("seed") = getTruthy d2 ("seed"))
    (k7 : getTruthy d1 ("steps") = getTruthy d2 ("steps"))
    (k8 : getTruthy d1 ("guidance") = getTruthy d2 ("guidance"))
    (k9 : getTruthy d1 ("quantize") = getTruthy d2 ("quantize"))
    (k10 : getTruthy d1 ("precision") = getTruthy d2 ("precision"))
    (k11 : getTruthy d1 ("lora_paths") = getTruthy d2 ("lora_paths"))
    (k12 : getTruthy d1 ("lora_scales") = getTruthy d2 ("lora_scales"))
    (k13 : getTruthy d1 ("image_path") = getTruthy d2 ("image_path"))
    (k14 : getTruthy d1 ("image_strength") = getTruthy d2 ("image_strength"))
    (k15 : getTruthy d1 ("controlnet_image_path") = getTruthy d2 ("controlnet_image_path"))
    (k16 : getTruthy d1 ("controlnet_strength") = getTruthy d2 ("controlnet_strength"))
    (k17 : getTruthy d1 ("generation_time_seconds") =
      getTruthy d2 ("generation_time_seconds"))
    (k18 : getTruthy d1 ("created_at") = getTruthy d2 ("created_at"))
    (k19 : getTruthy d1 ("mflux_version") = getTruthy d2 ("mflux_version")) :
    formatLines d1 = formatLines d2 := by
  unfold formatLines loraSection imageSection controlnetSection genMetaSection
    genTimeStep createdStep headLines
  rw [k1, k2, k3, k4, k5, k6, k7, k8, k9, k10, k11, k12, k13, k14, k15, k16, k17,
    k18, k19]

theorem format_metadata_of_nonempty {d : Dict} (x : Option Dict)
    (hne : d.isEmpty = false) :
    format_metadata ⟨some d, x⟩ =
      (formatLines d).map (fun ls => String.intercalate "\n" ls) := by
  unfold format_metadata
  simp only [Option.getD]
  rw [hne]
  rfl

theorem strs_exists {ps : List Value} (h : ∀ p ∈ ps, isStr p = true) :
    ∃ paths : List String, ps = paths.map Value.str := by
  induction ps with
  | nil => exact ⟨[], rfl⟩
  | cons v rest ih =>
    obtain ⟨paths, hps⟩ := ih (fun p hp => h p (List.mem_cons_of_mem v hp))
    have hv := h v (by simp)
    cases v with
    | str s => exact ⟨s :: paths, by rw [hps]; rfl⟩
    | int n => simp [isStr] at hv
    | float m e2 => simp [isStr] at hv
    | list vs => simp [isStr] at hv

theorem loraSection_ok {e : Dict} (ls : List String)
    (hp : getTruthy e ("lora_paths") = none ∨
      ∃ paths : List String,
        getTruthy e ("lora_paths") = some (Value.list (paths.map Value.str)))
    (hs : ∃ svs, (getTruthy e ("lora_scales")).getD (Value.list []) = Value.list svs) :
    ∃ out, loraSection e ls = Except.ok out := by
  unfold loraSection
  rcases hp with hp | ⟨paths, hp⟩
  · rw [hp]
    exact ⟨ls, rfl⟩
  · rw [hp]
    obtain ⟨svs, hsv⟩ := hs
    rw [hsv]
    dsimp only [pyLen, pyElems]
    rw [loraLoop_strs]
    exact ⟨_, rfl⟩

theorem imageSection_ok {e : Dict} (ls : List String)
    (hp : getTruthy e ("image_path") = none ∨
      ∃ s, getTruthy e ("image_path") = some (Value.str s)) :
    ∃ out, imageSection e ls = Except.ok out := by
  unfold imageSection
  rcases hp with hp | ⟨s, hp⟩
  · rw [hp]
    exact ⟨ls, rfl⟩
  · rw [hp]
    dsimp only [asPathStr]
    exact ⟨_, rfl⟩

theorem controlnetSection_ok {e : Dict} (ls : List String)
    (hp : getTruthy e ("controlnet_image_path") = none ∨
      ∃ s, getTruthy e ("controlnet_image_path") = some (Value.str s)) :
    ∃ out, controlnetSection e ls = Except.ok out := by
  unfold controlnetSection
  rcases hp with hp | ⟨s, hp⟩
  · rw [hp]
    exact ⟨ls, rfl⟩
  · rw [hp]
    dsimp only [asPathStr]
    exact ⟨_, rfl⟩

theorem genTimeStep_ok {e : Dict} (ls : List String)
    (hp : getTruthy e ("generation_time_seconds") = none ∨
      (∃ n, getTruthy e ("generation_time_seconds") = some (Value.int n)) ∨
      (∃ m e2, getTruthy e ("generation_time_seconds") = some (Value.float m e2))) :
    ∃ out, genTimeStep e ls = Except.ok out := by
  unfold genTimeStep
  rcases hp with hp | ⟨n, hp⟩ | ⟨m, e2, hp⟩ <;> rw [hp]
  · exact ⟨ls, rfl⟩
  · dsimp only [pyFormatFixed2]
    exact ⟨_, rfl⟩
  · dsimp only [pyFormatFixed2]
    exact ⟨_, rfl⟩

theorem createdStep_ok {e : Dict} (ls : List String)
    (hp : getTruthy e ("created_at") = none ∨
      ∃ s, getTruthy e ("created_at") = some (Value.str s)) :
    ∃ out, createdStep e ls = Except.ok out := by
  unfold createdStep
  rcases hp with hp | ⟨s, hp⟩ <;> rw [hp]
  · exact ⟨ls, rfl⟩
  · dsimp only
    cases hf : fromisoformat s
    · exact ⟨_, rfl⟩
    · exact ⟨_, rfl⟩

theorem genMetaSection_ok {e : Dict} (ls : List String)
    (hgt : getTruthy e ("generation_time_seconds") = none ∨
      (∃ n, getTruthy e ("generation_time_seconds") = some (Value.int n)) ∨
      (∃ m e2, getTruthy e ("generation_time_seconds") = some (Value.float m e2)))
    (hca : getTruthy e ("created_at") = none ∨
      ∃ s, getTruthy e ("created_at") = some (Value.str s)) :
    ∃ out, genMetaSection e ls = Except.ok out := by
  unfold genMetaSection
  obtain ⟨o1, h1⟩ := genTimeStep_ok (e := e) (ls ++ [""]) hgt
  rw [h1]
  dsimp only
  obtain ⟨o2, h2⟩ := createdStep_ok (e := e) o1 hca
  rw [h2]
  exact ⟨_, rfl⟩

theorem formatLines_ok {e : Dict} (hw : wellTypedValues e) :
    ∃ out, formatLines e = Except.ok out := by
  obtain ⟨w1, w2, w3, w4, w5, w6⟩ := hw
  unfold formatLines
  have hlp : getTruthy e ("lora_paths") = none ∨
      ∃ paths : List String,
        getTruthy e ("lora_paths") = some (Value.list (paths.map Value.str)) := by
    cases hg : getTruthy e ("lora_paths") with
    | none => exact Or.inl rfl
    | some v =>
      obtain ⟨ps, hv, hstr⟩ := w1 v hg
      obtain ⟨paths, hpaths⟩ := strs_exists hstr
      subst hv
      subst hpaths
      exact Or.inr ⟨paths, rfl⟩
  have hls : ∃ svs, (getTruthy e ("lora_scales")).getD (Value.list []) = Value.list svs := by
    cases hg : getTruthy e ("lora_scales") with
    | none => exact ⟨[], rfl⟩
    | some v =>
      obtain ⟨vs, hv⟩ := w2 v hg
      subst hv
      exact ⟨vs, rfl⟩
  have hip : getTruthy e ("image_path") = none ∨
      ∃ s, getTruthy e ("image_path") = some (Value.str s) := by
    cases hg : getTruthy e ("image_path") with
    | none => exact Or.inl rfl
    | some v =>
      have := w3 v hg
      cases v with
      | str s => exact Or.inr ⟨s, rfl⟩
      | int n => simp [isStr] at this
      | float m e2 => simp [isStr] at this
      | list vs => simp [isStr] at this
  have hcp : getTruthy e ("controlnet_image_path") = none ∨
      ∃ s, getTruthy e ("controlnet_image_path") = some (Value.str s) := by
    cases hg : getTruthy e ("controlnet_image_path") with
    | none => exact Or.inl rfl
    | some v =>
      have := w4 v hg
      cases v with
      | str s => exact Or.inr ⟨s, rfl⟩
      | int n => simp [isStr] at this
      | float m e2 => simp [isStr] at this
      | list vs => simp [isStr] at this
  have hgt : getTruthy e ("generation_time_seconds") = none ∨
      (∃ n, getTruthy e ("generation_time_seconds") = some (Value.int n)) ∨
      (∃ m e2, getTruthy e ("generation_time_seconds") = some (Value.float m e2)) := by
    cases hg : getTruthy e ("generation_time_seconds") with
    | none => exact Or.inl rfl
    | some v =>
      rcases w5 v hg with ⟨n, hv⟩ | ⟨m, e2, hv⟩
      · subst hv
        exact Or.inr (Or.inl ⟨n, rfl⟩)
      · subst hv
        exact Or.inr (Or.inr ⟨m, e2, rfl⟩)
  have hca : getTruthy e ("created_at") = none ∨
      ∃ s, getTruthy e ("created_at") = some (Value.str s) := by
    cases hg : getTruthy e ("created_at") with
    | none => exact Or.inl rfl
    | some v =>
      have := w6 v hg
      cases v with
      | str s => exact Or.inr ⟨s, rfl⟩
      | int n => simp [isStr] at this
      | float m e2 => simp [isStr] at this
      | list vs => simp [isStr] at this
  obtain ⟨o1, h1⟩ := loraSection_ok (e := e) (headLines e) hlp hls
  rw [h1]
  dsimp only
  obtain ⟨o2, h2⟩ := imageSection_ok (e := e) o1 hip
  rw [h2]
  dsimp only
  obtain ⟨o3, h3⟩ := controlnetSection_ok (e := e) o2 hcp
  rw [h3]
  dsimp only
  obtain ⟨o4, h4⟩ := genMetaSection_ok (e := e) o3 hgt hca
  rw [h4]
  exact ⟨_, rfl⟩

theorem mem_of_extends {x : String} {ls out : List String}
    (h : ∃ t, out = ls ++ t) (hx : x ∈ ls) : x ∈ out := by
  obtain ⟨t, ht⟩ := h
  rw [ht]
  exact List.mem_append_left _ hx

theorem isDigit_toNat_bounds {c : Char} (h : c.isDigit = true) :
    48 ≤ c.toNat ∧ c.toNat ≤ 57 := by
  simp [Char.isDigit] at h
  obtain ⟨h1, h2⟩ := h
  exact ⟨h1, h2⟩

theorem isDigit_ne_dot {c : Char} (h : c.isDigit = true) : c ≠ '.' := by
  intro he
  rw [he] at h
  simp [Char.isDigit] at h

theorem twoDigits_lt {c1 c2 : Char} {n : Nat} (h : twoDigits c1 c2 = some n) : n < 100 := by
  unfold twoDigits at h
  split at h
  · rename_i hd
    rw [Bool.and_eq_true] at hd
    obtain ⟨b1, _⟩ := isDigit_toNat_bounds hd.1
    obtain ⟨b2, b3⟩ := isDigit_toNat_bounds hd.2
    obtain ⟨b4, b5⟩ := isDigit_toNat_bounds hd.1
    injection h with h2
    omega
  · simp at h

theorem daysInMonth_le (y mo : Nat) : daysInMonth y mo ≤ 31 := by
  unfold daysInMonth
  split
  · split <;> omega
  · split <;> omega

theorem mkDateTime_bounds {a b c d e f : Nat} {dt : PyDateTime}
    (h : mkDateTime a b c d e f = some dt) :
    dt.year ≤ 9999 ∧ dt.month ≤ 12 ∧ dt.day ≤ 31 ∧ dt.hour ≤ 23 ∧
      dt.minute ≤ 59 ∧ dt.second ≤ 59 := by
  unfold mkDateTime at h
  split at h
  · rename_i hg
    simp only [Bool.and_eq_true, decide_eq_true_eq] at hg
    injection h with h2
    subst h2
    have hd31 := daysInMonth_le a b
    dsimp only
    omega
  · simp at h

theorem fromisoformat_bounds {s : String} {dt : PyDateTime}
    (h : fromisoformat s = some dt) :
    dt.year ≤ 9999 ∧ dt.month ≤ 12 ∧ dt.day ≤ 31 ∧ dt.hour ≤ 23 ∧
      dt.minute ≤ 59 ∧ dt.second ≤ 59 := by
  unfold fromisoformat at h
  repeat' split at h
  all_goals first
    | simp at h
    | exact mkDateTime_bounds h

theorem decimalReprAux_length_le :
    ∀ (fuel n k : Nat), 1 ≤ k → n < 10 ^ k → n < fuel →
      (decimalReprAux fuel n).length ≤ k := by
  intro fuel
  induction fuel with
  | zero =>
    intro n k hk hnk hnf
    omega
  | succ f ih =>
    intro n k hk hnk hnf
    unfold decimalReprAux
    split
    · simpa using hk
    · rename_i hge
      have hk2 : 2 ≤ k := by
        rcases Nat.lt_or_ge k 2 with hlt | hge2
        · interval_cases k <;> omega
        · exact hge2
      rw [List.length_append]
      have hpow : (10 : Nat) ^ k = 10 ^ (k - 1) * 10 := by
        rw [← pow_succ]
        congr 1
        omega
      have h1 : n / 10 < 10 ^ (k - 1) := by
        rw [hpow] at hnk
        exact (Nat.div_lt_iff_lt_mul (by omega)).mpr hnk
      have hdiv : n / 10 < n := Nat.div_lt_self (by omega) (by omega)
      have h2 := ih (n / 10) (k - 1) (by omega) h1 (by omega)
      have h3 : ([digitChar (n % 10)] : List Char).length = 1 := rfl
      omega

theorem decimalRepr_length_le {n k : Nat} (hk : 1 ≤ k) (h : n < 10 ^ k) :
    (decimalRepr n).length ≤ k :=
  decimalReprAux_length_le (n + 1) n k hk h (by omega)

theorem padNum_length {k n : Nat} (hk : 1 ≤ k) (h : n < 10 ^ k) :
    (padNum k n).data.length = k := by
  unfold padNum padZeros
  rw [String.data_append, List.length_append]
  have hle := decimalRepr_length_le hk h
  have h1 : (String.mk (List.replicate (k - (decimalRepr n).length) '0')).data.length =
      k - (decimalRepr n).length := by
    simp
  have h2 : (decimalRepr n).data.length = (decimalRepr n).length := rfl
  omega

theorem padNum_digits (k n : Nat) : ∀ c ∈ (padNum k n).data, c.isDigit = true := by
  intro c hc
  unfold padNum padZeros at hc
  rw [String.data_append] at hc
  rcases List.mem_append.mp hc with hc2 | hc2
  · have hc3 : c ∈ List.replicate (k - (decimalRepr n).length) '0' := hc2
    rw [List.eq_of_mem_replicate hc3]
    decide
  · exact decimalRepr_digits n c hc2

/-- The rendered-timestamp format of the claim: four year digits, a dash,
two month digits, a dash, two day digits, a space, and the three colon
separated two-digit time fields. -/
def timestampShape (t : String) : Prop :=
  ∃ y mo d hh mi ss : List Char,
    t.data = y ++ '-' :: (mo ++ '-' :: (d ++ ' ' :: (hh ++ ':' :: (mi ++ ':' :: ss)))) ∧
    y.length = 4 ∧ mo.length = 2 ∧ d.length = 2 ∧ hh.length = 2 ∧ mi.length = 2 ∧
    ss.length = 2 ∧
    ∀ c, (c ∈ y ∨ c ∈ mo ∨ c ∈ d ∨ c ∈ hh ∨ c ∈ mi ∨ c ∈ ss) → c.isDigit = true

theorem strftime_shape {dt : PyDateTime} (hy : dt.year ≤ 9999) (hmo : dt.month ≤ 99)
    (hd : dt.day ≤ 99) (hh : dt.hour ≤ 99) (hmi : dt.minute ≤ 99)
    (hs : dt.second ≤ 99) : timestampShape (strftimeYmdHms dt) := by
  have p4 : (10 : Nat) ^ 4 = 10000 := by norm_num
  have p2 : (10 : Nat) ^ 2 = 100 := by norm_num
  have len4 : (padNum 4 dt.year).data.length = 4 := padNum_length (by omega) (by omega)
  have lmo : (padNum 2 dt.month).data.length = 2 := padNum_length (by omega) (by omega)
  have ld : (padNum 2 dt.day).data.length = 2 := padNum_length (by omega) (by omega)
  have lh : (padNum 2 dt.hour).data.length = 2 := padNum_length (by omega) (by omega)
  have lmi : (padNum 2 dt.minute).data.length = 2 := padNum_length (by omega) (by omega)
  have ls : (padNum 2 dt.second).data.length = 2 := padNum_length (by omega) (by omega)
  refine ⟨(padNum 4 dt.year).data, (padNum 2 dt.month).data, (padNum 2 dt.day).data,
    (padNum 2 dt.hour).data, (padNum 2 dt.minute).data, (padNum 2 dt.second).data,
    ?_, len4, lmo, ld, lh, lmi, ls, ?_⟩
  · unfold strftimeYmdHms
    have hdash : ("-" : String).data = ['-'] := rfl
    have hsp : (" " : String).data = [' '] := rfl
    have hcol : (":" : String).data = [':'] := rfl
    simp only [String.data_append, hdash, hsp, hcol]
    simp [List.append_assoc]
  · intro c hc
    rcases hc with hc | hc | hc | hc | hc | hc
    · exact padNum_digits 4 dt.year c hc
    · exact padNum_digits 2 dt.month c hc
    · exact padNum_digits 2 dt.day c hc
    · exact padNum_digits 2 dt.hour c hc
    · exact padNum_digits 2 dt.minute c hc
    · exact padNum_digits 2 dt.second c hc

theorem sgnDecFrac_twoFrac (sgn : String) (hsgn : '.' ∉ sgn.data) (q r : Nat)
    (hr : r < 100) : twoFracDigits (sgn ++ decimalRepr q ++ "." ++ frac2 r) := by
  refine ⟨(sgn ++ decimalRepr q).data, digitChar (r / 10), digitChar (r % 10),
    ?_, ?_, ?_, ?_⟩
  · simp only [String.data_append]
    have h2 : (frac2 r).data = [digitChar (r / 10), digitChar (r % 10)] := rfl
    rw [h2]
    simp [List.append_assoc]
  · exact digitChar_isDigit (by omega)
  · exact digitChar_isDigit (by omega)
  · rw [String.data_append]
    intro hmem
    rcases List.mem_append.mp hmem with hm | hm
    · exact hsgn hm
    · exact isDigit_ne_dot (decimalRepr_digits q _ hm) rfl

theorem fixed2_twoFrac (m : Int) (e : Nat) : twoFracDigits (fixed2 m e) := by
  simp only [fixed2]
  apply sgnDecFrac_twoFrac
  · split
    · intro hmem
      have : ('.' : Char) ∈ ['-'] := hmem
      simp at this
    · intro hmem
      have : ('.' : Char) ∈ ([] : List Char) := hmem
      simp at this
  · exact Nat.mod_lt _ (by omega)

theorem pyFormatFixed2_twoFrac {v : Value} {s : String}
    (h : pyFormatFixed2 v = Except.ok s) : twoFracDigits s := by
  cases v with
  | str t => simp [pyFormatFixed2] at h
  | list vs => simp [pyFormatFixed2] at h
  | int n =>
    injection h with h2
    rw [← h2]
    exact fixed2_twoFrac n 0
  | float m e =>
    injection h with h2
    rw [← h2]
    exact fixed2_twoFrac m e

/-- The lines a walrus-guarded append contributes: one line when the field
is present and truthy, none otherwise. -/
def pushIfLines (o : Option Value) (f : Value → String) : List String :=
  match o with
  | some v => [f v]
  | none => []

theorem pushIf_eq (o : Option Value) (f : Value → String) (l : List String) :
    pushIf o f l = l ++ pushIfLines o f := by
  cases o with
  | none => simp [pushIf, pushIfLines]
  | some v => simp [pushIf, pushIfLines]

/-- Lines of section 1 (prompt). -/
def promptLines (e : Dict) : List String :=
  pushIfLines (getTruthy e ("prompt")) (fun p => "\nPrompt: " ++ pyStr p)

/-- Lines of section 2 (negative prompt). -/
def negPromptLines (e : Dict) : List String :=
  pushIfLines (getTruthy e ("negative_prompt")) (fun p => "Negative Prompt: " ++ pyStr p)

/-- Inner lines of section 3 (model). -/
def modelLines (e : Dict) : List String :=
  pushIfLines (getTruthy e ("model")) (fun v => "Model: " ++ pyStr v)

/-- Width line of section 4. -/
def widthLines (e : Dict) : List String :=
  pushIfLines (getTruthy e ("width")) (fun v => "Width: " ++ pyStr v)

/-- Height line of section 4. -/
def heightLines (e : Dict) : List String :=
  pushIfLines (getTruthy e ("height")) (fun v => "Height: " ++ pyStr v)

/-- Seed line of section 5. -/
def seedLines (e : Dict) : List String :=
  pushIfLines (getTruthy e ("seed")) (fun v => "Seed: " ++ pyStr v)

/-- Steps line of section 5. -/
def stepsLines (e : Dict) : List String :=
  pushIfLines (getTruthy e ("steps")) (fun v => "Steps: " ++ pyStr v)

/-- Guidance line of section 5. -/
def guidanceLines (e : Dict) : List String :=
  pushIfLines (getTruthy e ("guidance")) (fun v => "Guidance: " ++ pyStr v)

/-- Quantization line of section 6. -/
def quantizeLines (e : Dict) : List String :=
  pushIfLines (getTruthy e ("quantize")) (fun v => "Quantization: " ++ pyStr v ++ "-bit")

/-- Precision line of section 6. -/
def precisionLines (e : Dict) : List String :=
  pushIfLines (getTruthy e ("precision")) (fun v => "Precision: " ++ pyStr v)

theorem headLines_decomp (e : Dict) :
    headLines e = [rule60, "MFLUX Image Information", rule60] ++
      promptLines e ++ negPromptLines e ++
      ("" :: (modelLines e ++ widthLines e ++ heightLines e)) ++
      ("" :: (seedLines e ++ stepsLines e ++ guidanceLines e ++
        quantizeLines e ++ precisionLines e)) := by
  simp only [headLines, promptLines, negPromptLines, modelLines, widthLines,
    heightLines, seedLines, stepsLines, guidanceLines, quantizeLines,
    precisionLines, pushIf_eq]
  simp [List.append_assoc]

theorem loraSection_none {e : Dict} (ls : List String)
    (hg : getTruthy e ("lora_paths") = none) :
    loraSection e ls = Except.ok ls := by
  unfold loraSection
  rw [hg]

theorem imageSection_none {e : Dict} (ls : List String)
    (hg : getTruthy e ("image_path") = none) :
    imageSection e ls = Except.ok ls := by
  unfold imageSection
  rw [hg]

theorem controlnetSection_none {e : Dict} (ls : List String)
    (hg : getTruthy e ("controlnet_image_path") = none) :
    controlnetSection e ls = Except.ok ls := by
  unfold controlnetSection
  rw [hg]

theorem genMetaSection_sep {e : Dict} {ls out : List String}
    (h : genMetaSection e ls = Except.ok out) : ∃ t, out = ls ++ [""] ++ t := by
  obtain ⟨m2, m3, hgt, hcs, hout⟩ := genMetaSection_parts h
  obtain ⟨t1, ht1⟩ := genTimeStep_extends hgt
  obtain ⟨t2, ht2⟩ := createdStep_extends hcs
  obtain ⟨u, hu⟩ := pushIf_extends (getTruthy e ("mflux_version"))
    (fun v => "MFLUX Version: " ++ pyStr v) m3
  exact ⟨t1 ++ t2 ++ u, by rw [hout, hu, ht2, ht1]; simp [List.append_assoc]⟩

theorem getTruthy_erase_of_falsy {d : Dict} {k : String} {v : Value}
    (hv : dictGet d k = some v) (hf : truthy v = false) :
    ∀ k2, getTruthy d k2 = getTruthy (eraseKey k d) k2 := by
  intro k2
  by_cases hc : k2 = k
  · subst hc
    rw [getTruthy_eq_none_of_falsy hv hf, getTruthy_eraseKey_self]
  · exact (getTruthy_eraseKey_ne hc).symm

/-! ### Claim theorems -/

/-- Claim C3: for every input whose primary (exif-like) attribute mapping is
empty or absent, the formatter returns exactly the string "No metadata
found" and emits no other lines. -/
theorem C3_empty_no_metadata (md : Metadata)
    (h : md.exif = none ∨ md.exif = some ([] : List (String × Value))) :
    format_metadata md = Except.ok "No metadata found" := by
  obtain ⟨ex, xm⟩ := md
  rcases h with h | h
  · dsimp at h
    subst h
    rfl
  · dsimp at h
    subst h
    rfl

/-- Witness for C3 at the concrete input with both groups absent. -/
theorem C3_empty_no_metadata_witness :
    format_metadata ⟨none, none⟩ = Except.ok "No metadata found" :=
  C3_empty_no_metadata ⟨none, none⟩ (Or.inl rfl)

/-- Claim C9: calling the formatter twice on the same mapping yields
byte-identical output; in this pure embedding the formatter is a function,
so repeated application is literally the same value (the source keeps no
state between calls). -/
theorem C9_deterministic (md : Metadata) :
    format_metadata md = format_metadata md ∧
      (format_metadata md).map String.data = (format_metadata md).map String.data :=
  ⟨rfl, rfl⟩

/-- Counterexample to claim C4 as stated: with steps = 0 as the only entry
the mapping is truthy, so the full report skeleton is produced, whereas with
the field actually missing the formatter returns "No metadata found" — not
"exactly as if the field were missing". -/
theorem C4_counterexample :
    format_metadata ⟨some [("steps", Value.int 0)], none⟩ =
      Except.ok (rule60 ++ "\nMFLUX Image Information\n" ++ rule60 ++
        "\n\n\n\n" ++ rule60) ∧
    format_metadata ⟨some (eraseKey "steps" [("steps", Value.int 0)]), none⟩ =
      Except.ok "No metadata found" ∧
    rule60 ++ "\nMFLUX Image Information\n" ++ rule60 ++ "\n\n\n\n" ++ rule60 ≠
      "No metadata found" :=
  ⟨rfl, rfl, by decide⟩

/-- Claim C4 (amended): any field entry whose present value is falsy (for
example steps = 0, guidance = 0 or width = 0) is treated as absent — the
report equals the report for the mapping with the entry removed — provided
removing it leaves the mapping non-empty (the mapping-level emptiness check
still counts the falsy entry). -/
theorem C4_falsy_field_amended {d : Dict} {k : String} {v : Value} (x : Option Dict)
    (hv : dictGet d k = some v) (hf : truthy v = false)
    (hne : (eraseKey k d).isEmpty = false) :
    format_metadata ⟨some d, x⟩ =
      format_metadata ⟨some (eraseKey k d), x⟩ := by
  have hd : d.isEmpty = false := by
    cases hlist : (d : List (String × Value)) with
    | nil =>
      rw [hlist] at hv
      simp [dictGet] at hv
    | cons p rest => rfl
  rw [format_metadata_of_nonempty x hd, format_metadata_of_nonempty x hne]
  have hall := getTruthy_erase_of_falsy hv hf
  have hfl : formatLines d = formatLines (eraseKey k d) := by
    apply formatLines_congr <;> exact hall _
  rw [hfl]

/-- Witness for the amended C4 at guidance = 0 next to a model entry. -/
theorem C4_falsy_field_witness :
    format_metadata
        ⟨some [("guidance", Value.int 0), ("model", Value.str "X")], none⟩ =
      format_metadata
        ⟨some (eraseKey "guidance"
          [("guidance", Value.int 0), ("model", Value.str "X")]), none⟩ :=
  C4_falsy_field_amended none rfl rfl rfl

/-- Counterexample to claim C10 as stated: two primary mappings that agree
on every recognized field (all absent) but differ in an unrecognized key
produce different output, because the mapping-level emptiness check sees the
unrecognized entry. -/
theorem C10_counterexample :
    (∀ k ∈ recognizedKeys,
      getTruthy [("unrecognized", Value.int 1)] k = getTruthy [] k) ∧
    format_metadata ⟨some [("unrecognized", Value.int 1)], none⟩ =
      Except.ok (rule60 ++ "\nMFLUX Image Information\n" ++ rule60 ++
        "\n\n\n\n" ++ rule60) ∧
    format_metadata ⟨some [], some [("anything", Value.int 1)]⟩ =
      Except.ok "No metadata found" ∧
    rule60 ++ "\nMFLUX Image Information\n" ++ rule60 ++ "\n\n\n\n" ++ rule60 ≠
      "No metadata found" := by
  refine ⟨?_, rfl, rfl, by decide⟩
  intro k hk
  simp only [recognizedKeys] at hk
  fin_cases hk <;> rfl

/-- Claim C10 (amended): provided the two primary mappings are both
non-empty, the output depends only on the recognized fields — inputs that
agree on them but differ in the secondary (xmp-like) group or in
unrecognized primary keys format identically. -/
theorem C10_noninterference_amended {d1 d2 : Dict} (x1 x2 : Option Dict)
    (h1 : d1.isEmpty = false) (h2 : d2.isEmpty = false)
    (hk : ∀ k ∈ recognizedKeys, getTruthy d1 k = getTruthy d2 k) :
    format_metadata ⟨some d1, x1⟩ = format_metadata ⟨some d2, x2⟩ := by
  rw [format_metadata_of_nonempty x1 h1, format_metadata_of_nonempty x2 h2]
  have hfl : formatLines d1 = formatLines d2 := by
    apply formatLines_congr <;> exact hk _ (by decide)
  rw [hfl]

/-- Witness for the amended C10: junk keys and the xmp group do not change
the output. -/
theorem C10_noninterference_witness :
    format_metadata ⟨some [("model", Value.str "X"), ("junk", Value.int 7)], none⟩ =
      format_metadata ⟨some [("model", Value.str "X")],
        some [("other", Value.int 2)]⟩ :=
  C10_noninterference_amended none (some [("other", Value.int 2)]) rfl rfl
    (by intro k hk; simp only [recognizedKeys] at hk; fin_cases hk <;> rfl)

/-- Counterexample to claim C2 as stated: a mapping whose
generation_time_seconds is a (truthy) string makes the "{x:.2f}" conversion
raise an uncaught ValueError, so the formatter is not total over arbitrary
string/number/list-valued mappings. -/
theorem C2_counterexample :
    format_metadata ⟨some [("generation_time_seconds", Value.str "abc")], none⟩ =
      Except.error PyErr.valueError := rfl

/-- Claim C2 (amended): the formatter terminates normally and returns a
string for every mapping that respects the data model's field types
(lora_paths a list of strings, lora_scales a list, the path fields and
created_at strings, generation_time_seconds a number); other fields may
hold any value. -/
theorem C2_totality_amended (md : Metadata)
    (hw : wellTypedValues ((md.exif).getD ([] : List (String × Value)))) :
    ∃ s, format_metadata md = Except.ok s := by
  obtain ⟨ex, xm⟩ := md
  cases ex with
  | none => exact ⟨"No metadata found", rfl⟩
  | some d =>
    cases hb : (d : List (String × Value)).isEmpty with
    | true =>
      refine ⟨"No metadata found", ?_⟩
      unfold format_metadata
      simp only [Option.getD]
      rw [hb]
      rfl
    | false =>
      rw [format_metadata_of_nonempty xm hb]
      obtain ⟨out, hout⟩ := formatLines_ok (e := d) hw
      rw [hout]
      exact ⟨_, rfl⟩

/-- Witness for the amended C2 at a well-typed mapping. -/
theorem C2_totality_witness :
    ∃ s, format_metadata
      ⟨some [("generation_time_seconds", Value.float 123 1)], none⟩ =
        Except.ok s := by
  apply C2_totality_amended
  refine ⟨?_, ?_, ?_, ?_, ?_, ?_⟩ <;> intro v hv
  · exact Option.noConfusion hv
  · exact Option.noConfusion hv
  · exact Option.noConfusion hv
  · exact Option.noConfusion hv
  · injection hv with h2
    exact Or.inr ⟨123, 1, h2.symm⟩
  · exact Option.noConfusion hv

/-- Claim C7: for every present, truthy generation_time_seconds value the
report contains the line "Generation Time: {value}s" with the value rendered
by the "{x:.2f}" conversion, which always has exactly two fractional
digits. -/
theorem C7_generation_time {e : Dict} {ls : List String} {v : Value}
    (hok : formatLines e = Except.ok ls)
    (hv : getTruthy e ("generation_time_seconds") = some v) :
    ∃ t, pyFormatFixed2 v = Except.ok t ∧
      ("Generation Time: " ++ t ++ "s") ∈ ls ∧ twoFracDigits t := by
  obtain ⟨l1, l2, l3, l4, hl1, hl2, hl3, hl4, hls⟩ := formatLines_parts hok
  obtain ⟨m2, m3, hgt, hcs, hout⟩ := genMetaSection_parts hl4
  obtain ⟨t, hfix, hm2⟩ := genTimeStep_some hv hgt
  refine ⟨t, hfix, ?_, pyFormatFixed2_twoFrac hfix⟩
  have hmem1 : ("Generation Time: " ++ t ++ "s") ∈ m2 := by
    rw [hm2]
    simp
  have hmem2 := mem_of_extends (createdStep_extends hcs) hmem1
  have hmem3 : ("Generation Time: " ++ t ++ "s") ∈ l4 := by
    rw [hout]
    exact mem_pushIf _ _ hmem2
  rw [hls]
  exact List.mem_append_left _ hmem3

/-- Witness for C7 at generation_time_seconds = 12.3, rendered "12.30". -/
theorem C7_generation_time_witness :
    ∃ t, pyFormatFixed2 (Value.float 123 1) = Except.ok t ∧
      ("Generation Time: " ++ t ++ "s") ∈
        [rule60, "MFLUX Image Information", rule60, "", "", "",
          "Generation Time: 12.30s", rule60] ∧ twoFracDigits t :=
  C7_generation_time
    (e := [("generation_time_seconds", Value.float 123 1)]) rfl rfl

/-- Claim C6: every present path-valued field (lora_paths entries,
image_path, controlnet_image_path) is rendered through the basename, and the
basename never contains a path separator, so the full path is never
rendered. -/
theorem C6_basename_only {e : Dict} {ls : List String}
    (hok : formatLines e = Except.ok ls) :
    (∀ p, getTruthy e ("image_path") = some (Value.str p) →
      ("Source Image: " ++ pathName p) ∈ ls) ∧
    (∀ p, getTruthy e ("controlnet_image_path") = some (Value.str p) →
      ("ControlNet Image: " ++ pathName p) ∈ ls) ∧
    (∀ (paths : List String) (svs : List Value) (i : Nat) (p : String),
      getTruthy e ("lora_paths") = some (Value.list (paths.map Value.str)) →
      (getTruthy e ("lora_scales")).getD (Value.list []) = Value.list svs →
      paths.get? i = some p →
      ("  - " ++ pathName p ++ " (scale: " ++ pyStr (scaleAt svs i) ++ ")") ∈ ls) ∧
    (∀ q : String, '/' ∉ (pathName q).data) := by
  obtain ⟨l1, l2, l3, l4, hl1, hl2, hl3, hl4, hls⟩ := formatLines_parts hok
  subst hls
  refine ⟨?_, ?_, ?_, fun q => pathName_no_slash q⟩
  · intro p hp
    have h2 := imageSection_some hp hl2
    have hm : ("Source Image: " ++ pathName p) ∈ l2 := by
      rw [h2]
      apply mem_pushIf
      simp
    have hm3 := mem_of_extends (controlnetSection_extends hl3) hm
    have hm4 := mem_of_extends (genMetaSection_extends hl4) hm3
    exact List.mem_append_left _ hm4
  · intro p hp
    have h3 := controlnetSection_some hp hl3
    have hm : ("ControlNet Image: " ++ pathName p) ∈ l3 := by
      rw [h3]
      apply mem_pushIf
      simp
    have hm4 := mem_of_extends (genMetaSection_extends hl4) hm
    exact List.mem_append_left _ hm4
  · intro paths svs i p hlp hsc hget
    obtain ⟨n, items, entries, hn, hitems, hentries, hout⟩ := loraSection_some hlp hl1
    have hitems2 : items = paths.map Value.str := by
      injection hitems with h2
      exact h2.symm
    rw [hsc, hitems2, loraLoop_strs] at hentries
    have hent2 : entries = loraLinesSpec svs 0 paths := by
      injection hentries with h2
      exact h2.symm
    have hline := loraLinesSpec_get svs paths 0 i p hget
    rw [Nat.zero_add] at hline
    have hmem : ("  - " ++ pathName p ++ " (scale: " ++ pyStr (scaleAt svs i) ++ ")")
        ∈ entries := by
      rw [hent2]
      exact List.get?_mem hline
    have hm1 : ("  - " ++ pathName p ++ " (scale: " ++ pyStr (scaleAt svs i) ++ ")")
        ∈ l1 := by
      rw [hout]
      exact List.mem_append_right _ hmem
    have hm2 := mem_of_extends (imageSection_extends hl2) hm1
    have hm3 := mem_of_extends (controlnetSection_extends hl3) hm2
    have hm4 := mem_of_extends (genMetaSection_extends hl4) hm3
    exact List.mem_append_left _ hm4

/-- Witness for C6 at image_path = "/home/user/images/source.png". -/
theorem C6_basename_only_witness :
    ("Source Image: " ++ pathName "/home/user/images/source.png") ∈
      [rule60, "MFLUX Image Information", rule60, "", "", "",
        "Source Image: source.png", "", rule60] :=
  (C6_basename_only
    (e := [("image_path", Value.str "/home/user/images/source.png")]) rfl).1
    "/home/user/images/source.png" rfl

/-- Claim C5: a non-empty lora_paths list of length n renders the line
"LoRAs (n):" immediately followed by one line per entry of the form
"  - {basename(path)} (scale: {scale})", where the scale is lora_scales[i]
when the index is within lora_scales and 1.0 otherwise. -/
theorem C5_lora_rendering {e : Dict} {ls : List String} {paths : List String}
    {svs : List Value}
    (hlp : getTruthy e ("lora_paths") = some (Value.list (paths.map Value.str)))
    (hsc : (getTruthy e ("lora_scales")).getD (Value.list []) = Value.list svs)
    (hok : formatLines e = Except.ok ls) :
    ∃ pre post,
      ls = pre ++ ("LoRAs (" ++ decimalRepr paths.length ++ "):") ::
        (loraLinesSpec svs 0 paths ++ post) ∧
      (loraLinesSpec svs 0 paths).length = paths.length ∧
      (∀ i p, paths.get? i = some p →
        (loraLinesSpec svs 0 paths).get? i =
          some ("  - " ++ pathName p ++ " (scale: " ++ pyStr (scaleAt svs i) ++ ")")) ∧
      (∀ i w, svs.get? i = some w → scaleAt svs i = w) ∧
      (∀ i, svs.length ≤ i → scaleAt svs i = Value.float 10 1) := by
  obtain ⟨l1, l2, l3, l4, hl1, hl2, hl3, hl4, hls⟩ := formatLines_parts hok
  obtain ⟨n, items, entries, hn, hitems, hentries, hout⟩ := loraSection_some hlp hl1
  have hn2 : n = paths.length := by
    injection hn with h2
    rw [← h2]
    exact List.length_map _ _
  have hitems2 : items = paths.map Value.str := by
    injection hitems with h2
    exact h2.symm
  rw [hsc, hitems2, loraLoop_strs] at hentries
  have hent2 : entries = loraLinesSpec svs 0 paths := by
    injection hentries with h2
    exact h2.symm
  obtain ⟨t2, ht2⟩ := imageSection_extends hl2
  obtain ⟨t3, ht3⟩ := controlnetSection_extends hl3
  obtain ⟨t4, ht4⟩ := genMetaSection_extends hl4
  refine ⟨headLines e ++ [""], t2 ++ (t3 ++ (t4 ++ [rule60])), ?_,
    loraLinesSpec_length svs paths 0,
    ?_,
    fun i w hg => scaleAt_eq_of_get hg,
    fun i hge => scaleAt_eq_default (by rw [List.get?_eq_none]; omega)⟩
  · rw [hls, ht4, ht3, ht2, hout, hent2, hn2]
    simp [List.append_assoc]
  · intro i p hget
    have hline := loraLinesSpec_get svs paths 0 i p hget
    rwa [Nat.zero_add] at hline

/-- Witness for C5 at the two-path, one-scale example of the spec. -/
theorem C5_lora_rendering_witness :
    ∃ pre post,
      ([rule60, "MFLUX Image Information", rule60, "", "", "", "LoRAs (2):",
        "  - lora1.safetensors (scale: 0.8)", "  - lora2.safetensors (scale: 1.0)",
        "", rule60] : List String) =
        pre ++ ("LoRAs (" ++
            decimalRepr (["a/b/lora1.safetensors", "c/lora2.safetensors"] :
              List String).length ++ "):") ::
          (loraLinesSpec [Value.float 8 1] 0
            ["a/b/lora1.safetensors", "c/lora2.safetensors"] ++ post) ∧
      (loraLinesSpec [Value.float 8 1] 0
        ["a/b/lora1.safetensors", "c/lora2.safetensors"]).length =
        (["a/b/lora1.safetensors", "c/lora2.safetensors"] : List String).length ∧
      (∀ i p, (["a/b/lora1.safetensors", "c/lora2.safetensors"] :
          List String).get? i = some p →
        (loraLinesSpec [Value.float 8 1] 0
          ["a/b/lora1.safetensors", "c/lora2.safetensors"]).get? i =
          some ("  - " ++ pathName p ++ " (scale: " ++
            pyStr (scaleAt [Value.float 8 1] i) ++ ")")) ∧
      (∀ i w, ([Value.float 8 1] : List Value).get? i = some w →
        scaleAt [Value.float 8 1] i = w) ∧
      (∀ i, ([Value.float 8 1] : List Value).length ≤ i →
        scaleAt [Value.float 8 1] i = Value.float 10 1) :=
  C5_lora_rendering
    (e := [("lora_paths", Value.list [Value.str "a/b/lora1.safetensors",
      Value.str "c/lora2.safetensors"]),
      ("lora_scales", Value.list [Value.float 8 1])]) rfl rfl rfl

/-- Claim C8: for every non-empty mapping whose report succeeds, the line
list decomposes in the fixed section order: header rule, title, rule; then
the prompt and negative-prompt lines of sections 1 and 2; the unconditional
separator of section 3 with the model and dimension lines; the unconditional
separator of section 5 with the generation-parameter and technical lines;
the LoRA, image-to-image and ControlNet blocks of sections 7–9; the
unconditional separator of section 10 with its inner lines; and the footer
rule.  Sections 1, 2, 4, 6–9 contribute no lines at all when their trigger
fields are absent, while the separators of sections 3, 5 and 10 are present
for every mapping; with every section field absent the lines are exactly
header, three separators, footer. -/
theorem C8_section_structure {e : Dict} (x : Option Dict)
    (hne : e.isEmpty = false) :
    format_metadata ⟨some e, x⟩ =
        (formatLines e).map (fun ls => String.intercalate "\n" ls) ∧
    rule60.length = 60 ∧
    (∀ ls, formatLines e = Except.ok ls →
      ∃ s7 s8 s9 s10 : List String,
        ls = [rule60, "MFLUX Image Information", rule60] ++
          promptLines e ++ negPromptLines e ++
          ("" :: (modelLines e ++ widthLines e ++ heightLines e)) ++
          ("" :: (seedLines e ++ stepsLines e ++ guidanceLines e ++
            quantizeLines e ++ precisionLines e)) ++
          s7 ++ s8 ++ s9 ++ ("" :: s10) ++ [rule60] ∧
        (getTruthy e ("prompt") = none → promptLines e = []) ∧
        (getTruthy e ("negative_prompt") = none → negPromptLines e = []) ∧
        (getTruthy e ("width") = none → widthLines e = []) ∧
        (getTruthy e ("height") = none → heightLines e = []) ∧
        (getTruthy e ("quantize") = none → quantizeLines e = []) ∧
        (getTruthy e ("precision") = none → precisionLines e = []) ∧
        (getTruthy e ("lora_paths") = none → s7 = []) ∧
        (getTruthy e ("image_path") = none → s8 = []) ∧
        (getTruthy e ("controlnet_image_path") = none → s9 = [])) ∧
    ((∀ k ∈ sectionFieldKeys, getTruthy e k = none) →
      formatLines e =
        Except.ok [rule60, "MFLUX Image Information", rule60, "", "", "",
          rule60]) := by
  refine ⟨format_metadata_of_nonempty x hne, rfl, ?_, ?_⟩
  · intro ls hok
    obtain ⟨l1, l2, l3, l4, hl1, hl2, hl3, hl4, hls⟩ := formatLines_parts hok
    have h7 : ∃ t7, l1 = headLines e ++ t7 ∧
        (getTruthy e ("lora_paths") = none → t7 = []) := by
      cases hg : getTruthy e ("lora_paths") with
      | none =>
        rw [loraSection_none _ hg] at hl1
        injection hl1 with h2
        exact ⟨[], by rw [← h2]; simp, fun _ => rfl⟩
      | some lp =>
        obtain ⟨t, ht⟩ := loraSection_extends hl1
        refine ⟨t, ht, ?_⟩
        intro hc
        simp at hc
    have h8 : ∃ t8, l2 = l1 ++ t8 ∧
        (getTruthy e ("image_path") = none → t8 = []) := by
      cases hg : getTruthy e ("image_path") with
      | none =>
        rw [imageSection_none _ hg] at hl2
        injection hl2 with h2
        exact ⟨[], by rw [← h2]; simp, fun _ => rfl⟩
      | some ip =>
        obtain ⟨t, ht⟩ := imageSection_extends hl2
        refine ⟨t, ht, ?_⟩
        intro hc
        simp at hc
    have h9 : ∃ t9, l3 = l2 ++ t9 ∧
        (getTruthy e ("controlnet_image_path") = none → t9 = []) := by
      cases hg : getTruthy e ("controlnet_image_path") with
      | none =>
        rw [controlnetSection_none _ hg] at hl3
        injection hl3 with h2
        exact ⟨[], by rw [← h2]; simp, fun _ => rfl⟩
      | some cp =>
        obtain ⟨t, ht⟩ := controlnetSection_extends hl3
        refine ⟨t, ht, ?_⟩
        intro hc
        simp at hc
    obtain ⟨t7, ht7, habs7⟩ := h7
    obtain ⟨t8, ht8, habs8⟩ := h8
    obtain ⟨t9, ht9, habs9⟩ := h9
    obtain ⟨t10, ht10⟩ := genMetaSection_sep hl4
    refine ⟨t7, t8, t9, t10, ?_,
      fun h => by unfold promptLines; rw [h]; rfl,
      fun h => by unfold negPromptLines; rw [h]; rfl,
      fun h => by unfold widthLines; rw [h]; rfl,
      fun h => by unfold heightLines; rw [h]; rfl,
      fun h => by unfold quantizeLines; rw [h]; rfl,
      fun h => by unfold precisionLines; rw [h]; rfl,
      habs7, habs8, habs9⟩
    rw [hls, ht10, ht9, ht8, ht7, headLines_decomp]
    simp [List.append_assoc]
  · intro hk
    have g1 := hk "prompt" (by decide)
    have g2 := hk "negative_prompt" (by decide)
    have g3 := hk "model" (by decide)
    have g4 := hk "width" (by decide)
    have g5 := hk "height" (by decide)
    have g6 := hk "seed" (by decide)
    have g7 := hk "steps" (by decide)
    have g8 := hk "guidance" (by decide)
    have g9 := hk "quantize" (by decide)
    have g10 := hk "precision" (by decide)
    have g11 := hk "lora_paths" (by decide)
    have g12 := hk "image_path" (by decide)
    have g13 := hk "controlnet_image_path" (by decide)
    have g14 := hk "generation_time_seconds" (by decide)
    have g15 := hk "created_at" (by decide)
    have g16 := hk "mflux_version" (by decide)
    simp only [formatLines, loraSection, imageSection, controlnetSection,
      genMetaSection, genTimeStep, createdStep, headLines, pushIf,
      g1, g2, g3, g4, g5, g6, g7, g8, g9, g10, g11, g12, g13, g14, g15, g16]
    rfl

/-- Witness for C8 at a mixed mapping holding only a model entry: the
decomposition instantiates with empty skipped sections and the Model line
inside section 3. -/
theorem C8_section_structure_witness :
    ∃ s7 s8 s9 s10 : List String,
      ([rule60, "MFLUX Image Information", rule60, "", "Model: X", "", "",
          rule60] : List String) =
        [rule60, "MFLUX Image Information", rule60] ++
          promptLines [("model", Value.str "X")] ++
          negPromptLines [("model", Value.str "X")] ++
          ("" :: (modelLines [("model", Value.str "X")] ++
            widthLines [("model", Value.str "X")] ++
            heightLines [("model", Value.str "X")])) ++
          ("" :: (seedLines [("model", Value.str "X")] ++
            stepsLines [("model", Value.str "X")] ++
            guidanceLines [("model", Value.str "X")] ++
            quantizeLines [("model", Value.str "X")] ++
            precisionLines [("model", Value.str "X")])) ++
          s7 ++ s8 ++ s9 ++ ("" :: s10) ++ [rule60] ∧
      (getTruthy [("model", Value.str "X")] ("prompt") = none →
        promptLines [("model", Value.str "X")] = []) ∧
      (getTruthy [("model", Value.str "X")] ("negative_prompt") = none →
        negPromptLines [("model", Value.str "X")] = []) ∧
      (getTruthy [("model", Value.str "X")] ("width") = none →
        widthLines [("model", Value.str "X")] = []) ∧
      (getTruthy [("model", Value.str "X")] ("height") = none →
        heightLines [("model", Value.str "X")] = []) ∧
      (getTruthy [("model", Value.str "X")] ("quantize") = none →
        quantizeLines [("model", Value.str "X")] = []) ∧
      (getTruthy [("model", Value.str "X")] ("precision") = none →
        precisionLines [("model", Value.str "X")] = []) ∧
      (getTruthy [("model", Value.str "X")] ("lora_paths") = none → s7 = []) ∧
      (getTruthy [("model", Value.str "X")] ("image_path") = none → s8 = []) ∧
      (getTruthy [("model", Value.str "X")] ("controlnet_image_path") = none →
        s9 = []) :=
  (C8_section_structure (e := [("model", Value.str "X")]) none rfl).2.2.1
    [rule60, "MFLUX Image Information", rule60, "", "Model: X", "", "", rule60]
    rfl

/-- Counterexample to claim C1 as stated: a truthy created_at of the wrong
(non-string) type makes fromisoformat raise TypeError, which the
`except (ValueError, AttributeError)` clause does not catch, so formatting
raises instead of falling back to the raw value. -/
theorem C1_counterexample :
    format_metadata ⟨some [("created_at", Value.int 5)], none⟩ =
      Except.error PyErr.typeError := rfl

/-- Claim C1 (amended): for every truthy string value of created_at, a value
that parses as an ISO-8601 timestamp renders as "Created: " followed by the
timestamp in YYYY-MM-DD HH:MM:SS form, and a malformed string falls back to
"Created: " followed by the raw value without raising; but a truthy value of
the wrong (non-string) type raises an uncaught TypeError, so no report is
produced. -/
theorem C1_created_at_amended {e : Dict} {v : Value}
    (hv : getTruthy e ("created_at") = some v) :
    (∀ s, v = Value.str s →
      ∀ ls, formatLines e = Except.ok ls →
        (∀ dt, fromisoformat s = some dt →
          ("Created: " ++ strftimeYmdHms dt) ∈ ls ∧
            timestampShape (strftimeYmdHms dt)) ∧
        (fromisoformat s = none → ("Created: " ++ s) ∈ ls)) ∧
    (isStr v = false → ∀ ls, formatLines e ≠ Except.ok ls) := by
  constructor
  · intro s hvs ls hok
    subst hvs
    obtain ⟨l1, l2, l3, l4, hl1, hl2, hl3, hl4, hls⟩ := formatLines_parts hok
    obtain ⟨m2, m3, hgt, hcs, hout⟩ := genMetaSection_parts hl4
    obtain ⟨hsome, hnone⟩ := createdStep_str hv hcs
    constructor
    · intro dt hdt
      constructor
      · have hm : ("Created: " ++ strftimeYmdHms dt) ∈ m3 := by
          rw [hsome dt hdt]
          simp
        have hm4 : ("Created: " ++ strftimeYmdHms dt) ∈ l4 := by
          rw [hout]
          exact mem_pushIf _ _ hm
        rw [hls]
        exact List.mem_append_left _ hm4
      · obtain ⟨hy, hmo, hd, hh, hmi, hs2⟩ := fromisoformat_bounds hdt
        exact strftime_shape (by omega) (by omega) (by omega) (by omega)
          (by omega) (by omega)
    · intro hn
      have hm : ("Created: " ++ s) ∈ m3 := by
        rw [hnone hn]
        simp
      have hm4 : ("Created: " ++ s) ∈ l4 := by
        rw [hout]
        exact mem_pushIf _ _ hm
      rw [hls]
      exact List.mem_append_left _ hm4
  · intro hns
    exact formatLines_created_nonstr hv hns

/-- Witness for the amended C1 at created_at = "2024-03-05T10:15:30". -/
theorem C1_created_at_witness :
    ("Created: " ++ strftimeYmdHms ⟨2024, 3, 5, 10, 15, 30⟩) ∈
      ([rule60, "MFLUX Image Information", rule60, "", "", "",
        "Created: 2024-03-05 10:15:30", rule60] : List String) ∧
    timestampShape (strftimeYmdHms ⟨2024, 3, 5, 10, 15, 30⟩) :=
  ((C1_created_at_amended
      (e := [("created_at", Value.str "2024-03-05T10:15:30")]) rfl).1
    "2024-03-05T10:15:30" rfl
    [rule60, "MFLUX Image Information", rule60, "", "", "",
      "Created: 2024-03-05 10:15:30", rule60] rfl).1
    ⟨2024, 3, 5, 10, 15, 30⟩ rfl

end MFluxInfo
